import Mathlib

/-!
Verification of the IQAir scraping/extraction engine (`server/iqair`):
a shallow embedding of the ranking-table parser, the flat-array search
reconstructor, the multi-tier city resolver and the detail-page extractor,
with theorems checking the natural-language specification against the code.

JavaScript `number` values are embedded as `ℚ` (every numeric literal and
arithmetic operation appearing in this module is exact in `ℚ`); `NaN`
outcomes of `parseInt`/`parseFloat` are embedded as `Option` `none`.
The DOM is embedded as a tree of element/text nodes, and the cheerio
selections used by the code (`find`, `filter`, `first`, `last`, `has`,
`.text()`, attribute and class selectors) as list operations over that tree.
-/

/-- Whitespace as matched by JavaScript `\s` / `trim` on the ASCII range. -/
def isWsChar (c : Char) : Bool :=
  c == ' ' || c == '\t' || c == '\n' || c == '\r' || c == '\x0b' || c == '\x0c'

/-- JavaScript `String.prototype.trim`. -/
def jsTrim (s : String) : String :=
  ⟨((s.data.dropWhile isWsChar).reverse.dropWhile isWsChar).reverse⟩

/-- JavaScript `String.prototype.toLowerCase` (ASCII range). -/
def jsToLower (s : String) : String :=
  ⟨s.data.map Char.toLower⟩

/-- `p` is a prefix of `l`, comparing characters exactly. -/
def charsStartWith : List Char → List Char → Bool
  | [], _ => true
  | _ :: _, [] => false
  | p :: ps, c :: cs => p == c && charsStartWith ps cs

/-- Case-insensitive prefix test (ASCII case folding). -/
def ciStartsWith (p l : List Char) : Bool :=
  charsStartWith (p.map Char.toLower) (l.map Char.toLower)

/-- `needle` occurs somewhere in `hay`. -/
def charsOccur (needle : List Char) : List Char → Bool
  | [] => charsStartWith needle []
  | c :: cs => charsStartWith needle (c :: cs) || charsOccur needle cs

/-- JavaScript `String.prototype.includes`. -/
def jsIncludes (s sub : String) : Bool :=
  charsOccur sub.data s.data

/-- JavaScript `String.prototype.startsWith`. -/
def jsStartsWith (s p : String) : Bool :=
  charsStartWith p.data s.data

/-- Helper for `jsSplitChar`. -/
def splitCharAux (sep : Char) : List Char → List Char → List String
  | [], cur => [⟨cur.reverse⟩]
  | c :: t, cur =>
    if c == sep then ⟨cur.reverse⟩ :: splitCharAux sep t []
    else splitCharAux sep t (c :: cur)

/-- JavaScript `String.prototype.split` with a one-character separator. -/
def jsSplitChar (s : String) (sep : Char) : List String :=
  splitCharAux sep s.data []

/-- Helper for `jsSplitWs`: `inWs` records whether the previous character was
whitespace (a whitespace run is one separator). -/
def splitWsAux : List Char → List Char → Bool → List String
  | [], cur, _ => [⟨cur.reverse⟩]
  | c :: t, cur, inWs =>
    if isWsChar c then
      if inWs then splitWsAux t cur true
      else ⟨cur.reverse⟩ :: splitWsAux t [] true
    else splitWsAux t (c :: cur) false

/-- JavaScript `String.prototype.split` on the regex `\s+`. -/
def jsSplitWs (s : String) : List String :=
  splitWsAux s.data [] false

/-- JavaScript `word.charAt(0).toUpperCase() + word.slice(1)`. -/
def capitalizeWord (w : String) : String :=
  match w.data with
  | [] => ""
  | c :: t => ⟨Char.toUpper c :: t⟩

/-- `slug.split("-").map(capitalize).join(" ")`: display string from a slug. -/
def slugToDisplay (s : String) : String :=
  String.intercalate " " ((jsSplitChar s '-').map capitalizeWord)

/-- Helper for `jsReplaceFirst`. -/
def replaceFirstAux (pat rep : List Char) : List Char → List Char
  | [] => if charsStartWith pat [] then rep else []
  | c :: t =>
    if charsStartWith pat (c :: t) then rep ++ (c :: t).drop pat.length
    else c :: replaceFirstAux pat rep t

/-- JavaScript `String.prototype.replace` with a plain-string pattern:
replaces the first occurrence only. -/
def jsReplaceFirst (s pat rep : String) : String :=
  ⟨replaceFirstAux pat.data rep.data s.data⟩

/-- Helper for `wsRunsToHyphen`. -/
def wsRunsToHyphenAux : List Char → Bool → List Char
  | [], _ => []
  | c :: t, prevWs =>
    if isWsChar c then
      if prevWs then wsRunsToHyphenAux t true
      else '-' :: wsRunsToHyphenAux t true
    else c :: wsRunsToHyphenAux t false

/-- JavaScript `s.replace(/\s+/g, "-")`. -/
def wsRunsToHyphen (s : String) : String :=
  ⟨wsRunsToHyphenAux s.data false⟩

/-- Numeric value of a list of decimal digits. -/
def digitsToNat (ds : List Char) : Nat :=
  ds.foldl (fun n c => n * 10 + (c.toNat - '0'.toNat)) 0

/-- JavaScript `Number.parseInt(s, 10)`: skip leading whitespace, optional
sign, then a maximal run of decimal digits; `none` embeds `NaN`. -/
def jsParseInt (s : String) : Option Int :=
  let l := s.data.dropWhile isWsChar
  let (neg, l) :=
    match l with
    | '-' :: t => (true, t)
    | '+' :: t => (false, t)
    | t => (false, t)
  let ds := l.takeWhile Char.isDigit
  if ds.isEmpty then none
  else some (if neg then -(digitsToNat ds : Int) else (digitsToNat ds : Int))

/-- JavaScript `Math.abs` on the embedded numbers. -/
def ratAbs (q : ℚ) : ℚ :=
  if q < 0 then -q else q

/-- JavaScript `Number.parseFloat`: skip leading whitespace, optional sign,
decimal digits with an optional fraction, and an optional exponent; `none`
embeds `NaN`.  (The `Infinity` literal, which never arises from the numeric
texts this module feeds to `parseFloat`, is not modelled.) -/
def jsParseFloat (s : String) : Option ℚ :=
  let l := s.data.dropWhile isWsChar
  let (neg, l) :=
    match l with
    | '-' :: t => (true, t)
    | '+' :: t => (false, t)
    | t => (false, t)
  let intPart := l.takeWhile Char.isDigit
  let rest := l.drop intPart.length
  let (fracPart, rest) :=
    match rest with
    | '.' :: t => (t.takeWhile Char.isDigit, (t.dropWhile Char.isDigit))
    | t => ([], t)
  if intPart.isEmpty && fracPart.isEmpty then none
  else
    let mantissa : Int := (digitsToNat (intPart ++ fracPart) : Int)
    let expVal : Int :=
      match rest with
      | 'e' :: t | 'E' :: t =>
        let (eneg, t) :=
          match t with
          | '-' :: u => (true, u)
          | '+' :: u => (false, u)
          | u => (false, u)
        let eds := t.takeWhile Char.isDigit
        if eds.isEmpty then 0
        else if eneg then -(digitsToNat eds : Int) else (digitsToNat eds : Int)
      | _ => 0
    -- the value is mantissa · 10^(expVal − fracPart.length), built with
    -- `mkRat` to stay kernel-computable
    let e : Int := expVal - (fracPart.length : Int)
    let v : ℚ :=
      if 0 ≤ e then ((mantissa * ((10 ^ e.toNat : Nat) : Int) : Int) : ℚ)
      else mkRat mantissa (10 ^ (-e).toNat)
    some (if neg then -v else v)

/-!
Regex embeddings.  Each regex used by the module is embedded as a direct
scanner with the semantics of the JavaScript engine on that pattern:
leftmost match, alternatives in written order, greedy repetition (for these
patterns the greedy run is the only viable one, because no repeated
character class overlaps the character starting the following part).
-/

/-- Try `(?:AQI|US AQI)[\s:]*(\d{1,3})` (case-insensitive) anchored at the
head of `l`; returns the captured digit group. -/
def aqiScanAt (l : List Char) : Option Nat :=
  let afterLit : Option (List Char) :=
    if ciStartsWith "aqi".data l then some (l.drop 3)
    else if ciStartsWith "us aqi".data l then some (l.drop 6)
    else none
  match afterLit with
  | none => none
  | some rest =>
    let rest := rest.dropWhile (fun c => isWsChar c || c == ':')
    let ds := (rest.takeWhile Char.isDigit).take 3
    if ds.isEmpty then none else some (digitsToNat ds)

/-- Leftmost match of `(?:AQI|US AQI)[\s:]*(\d{1,3})` (case-insensitive). -/
def aqiScan : List Char → Option Nat
  | [] => none
  | c :: cs =>
    match aqiScanAt (c :: cs) with
    | some v => some v
    | none => aqiScan cs

/-- `cardText.match(/(?:AQI|US AQI)[\s:]*(\d{1,3})/i)`, group 1. -/
def aqiRegexCapture (s : String) : Option Nat :=
  aqiScan s.data

/-- Try `(\d+\.?\d*)\s*(unit₁|unit₂|…)` anchored at the head of `l`;
returns (number group, unit group as it appears in the text). -/
def numUnitAt (units : List String) (l : List Char) : Option (String × String) :=
  let d1 := l.takeWhile Char.isDigit
  if d1.isEmpty then none
  else
    let rest := l.drop d1.length
    let (dotPart, rest) :=
      match rest with
      | '.' :: t => ('.' :: t.takeWhile Char.isDigit, t.dropWhile Char.isDigit)
      | t => ([], t)
    let rest := rest.dropWhile isWsChar
    match units.find? (fun u => ciStartsWith u.data rest) with
    | some u => some (⟨d1 ++ dotPart⟩, ⟨rest.take u.length⟩)
    | none => none

/-- Leftmost match of `(\d+\.?\d*)\s*(units…)` (case-insensitive). -/
def numUnitScanAux (units : List String) : List Char → Option (String × String)
  | [] => none
  | c :: cs =>
    match numUnitAt units (c :: cs) with
    | some v => some v
    | none => numUnitScanAux units cs

/-- `text.match(/(\d+\.?\d*)\s*(units…)/i)`, groups 1 and 2. -/
def numUnitScan (units : List String) (s : String) : Option (String × String) :=
  numUnitScanAux units s.data

/-- `text.match(/^\d+\.?\d*\s*(µg|mg)/i)` as a Boolean test (anchored). -/
def valueShapeTest (s : String) : Bool :=
  (numUnitAt ["µg", "mg"] s.data).isSome

/-- Chars admitted by the class `[A-Z0-9.]` under the `i` flag. -/
def isNameClassChar (c : Char) : Bool :=
  c.isAlpha || c.isDigit || c == '.'

/-- Returns the characters after the first case-insensitive occurrence of
`lit` in `l`. -/
def afterCiLit (lit : List Char) : List Char → Option (List Char)
  | [] => if ciStartsWith lit [] then some [] else none
  | c :: cs =>
    if ciStartsWith lit (c :: cs) then some ((c :: cs).drop lit.length)
    else afterCiLit lit cs

/-- Try `Main pollutant[:\s]+([A-Z0-9.]+)` (case-insensitive) anchored at the
head of `l`. -/
def mainNameAt (l : List Char) : Option String :=
  if ciStartsWith "main pollutant".data l then
    let rest := l.drop 14
    let sep := rest.takeWhile (fun c => isWsChar c || c == ':')
    if sep.isEmpty then none
    else
      let rest := rest.drop sep.length
      let name := rest.takeWhile isNameClassChar
      if name.isEmpty then none else some ⟨name⟩
  else none

/-- Leftmost match of `Main pollutant[:\s]+([A-Z0-9.]+)` (case-insensitive),
group 1. -/
def mainNameScanAux : List Char → Option String
  | [] => none
  | c :: cs =>
    match mainNameAt (c :: cs) with
    | some v => some v
    | none => mainNameScanAux cs

/-- `allText.match(/Main pollutant[:\s]+([A-Z0-9.]+)/i)`, group 1. -/
def mainNameRegex (s : String) : Option String :=
  mainNameScanAux s.data

/-- `allText.match(/Main pollutant[^]*?(\d+\.?\d*)\s*(µg\/m³|µg|mg\/m³)/i)`:
with the lazy gap, this is the first number+unit occurring after the first
occurrence of the literal (a later literal occurrence cannot succeed when the
first one fails, because its tail is a suffix of the first one's tail). -/
def mainValueRegex (units : List String) (s : String) : Option (String × String) :=
  match afterCiLit "main pollutant".data s.data with
  | none => none
  | some rest => numUnitScanAux units rest

/-- Leftmost match of `(PM2\.5|PM10|O3|NO2|SO2|CO)` (case-sensitive),
alternatives in written order at each position. -/
def pollutantCodeScan : List Char → Option String
  | [] => none
  | c :: cs =>
    match ["PM2.5", "PM10", "O3", "NO2", "SO2", "CO"].find?
        (fun code => charsStartWith code.data (c :: cs)) with
    | some code => some code
    | none => pollutantCodeScan cs

/-- `name.match(/(PM2\.5|PM10|O3|NO2|SO2|CO)/)`, group 1. -/
def pollutantCodeRegex (s : String) : Option String :=
  pollutantCodeScan s.data

/-!  DOM embedding. -/

/-- A DOM node: element with tag, attributes and children, or a text node. -/
inductive HNode where
  | elem (tag : String) (attrs : List (String × String)) (children : List HNode)
  | textNode (s : String)
deriving Repr

/-- Tag of an element node (`""` for a text node). -/
def tagOf : HNode → String
  | .elem t _ _ => t
  | .textNode _ => ""

/-- Attribute lookup, cheerio `.attr(name)`. -/
def attrOf (n : HNode) (name : String) : Option String :=
  match n with
  | .elem _ attrs _ => (attrs.find? (fun p => p.1 == name)).map (·.2)
  | .textNode _ => none

mutual

/-- cheerio `.text()`: concatenated text of all descendant text nodes. -/
def textOf : HNode → String
  | .textNode s => s
  | .elem _ _ ch => textOfList ch

/-- Text of a list of nodes, in order. -/
def textOfList : List HNode → String
  | [] => ""
  | c :: cs => textOf c ++ textOfList cs

end

mutual

/-- All descendant element nodes of `n` (excluding `n`), in document
(pre-)order. -/
def descElems : HNode → List HNode
  | .textNode _ => []
  | .elem _ _ ch => descElemsList ch

/-- Descendant-or-self elements of a node list, in document order. -/
def descElemsList : List HNode → List HNode
  | [] => []
  | c :: cs =>
    (match c with
     | .elem .. => [c]
     | .textNode _ => []) ++ descElems c ++ descElemsList cs

end

/-- cheerio `ctx.find(tag)`: descendant elements with the given tag. -/
def findTag (n : HNode) (tag : String) : List HNode :=
  (descElems n).filter (fun e => tagOf e == tag)

/-- The class attribute contains `tok` as a whitespace-separated token
(CSS class selector semantics). -/
def hasClassToken (n : HNode) (tok : String) : Bool :=
  (jsSplitWs ((attrOf n "class").getD "")).contains tok

/-- cheerio `ctx.find("tag.cls")`. -/
def findTagClass (n : HNode) (tag cls : String) : List HNode :=
  (descElems n).filter (fun e => tagOf e == tag && hasClassToken e cls)

mutual

/-- cheerio `ctx.find("t1 t2")` (descendant combinator): elements with tag
`t2` lying strictly inside an element with tag `t1` that lies strictly inside
the context node.  `inside` records whether a `t1` ancestor has been passed. -/
def findUnder (t1 t2 : String) (inside : Bool) : HNode → List HNode
  | .textNode _ => []
  | .elem t a ch =>
    (if inside && t == t2 then [HNode.elem t a ch] else []) ++
      findUnderList t1 t2 (inside || t == t1) ch

/-- `findUnder` over a list of children. -/
def findUnderList (t1 t2 : String) (inside : Bool) : List HNode → List HNode
  | [] => []
  | c :: cs => findUnder t1 t2 inside c ++ findUnderList t1 t2 inside cs

end

/-!  Data model (`server/iqair` interfaces). -/

/-- `IQAirCityRanking`. -/
structure IQAirCityRanking where
  rank : Int
  city : String
  countrySlug : String
  aqi : ℚ
  url : String
deriving Repr, DecidableEq

/-- `IQAirSearchResult`. -/
structure IQAirSearchResult where
  id : String
  name : String
  state : String
  country : String
  url : String
  aqi : ℚ
  estimated : Bool
  latitude : ℚ
  longitude : ℚ
  followersCount : ℚ
deriving Repr, DecidableEq

/-- `IQAirPollutant`. -/
structure IQAirPollutant where
  name : String
  description : String
  value : ℚ
  unit : String
deriving Repr, DecidableEq

/-- The `mainPollutant` component of `IQAirCityDetails`. -/
structure MainPollutantInfo where
  name : String
  value : ℚ
  unit : String
deriving Repr, DecidableEq

/-- `IQAirCityDetails` (the `IQAirCityRanking` fields are flattened in). -/
structure IQAirCityDetails where
  rank : Int
  city : String
  countrySlug : String
  aqi : ℚ
  url : String
  level : String
  mainPollutant : MainPollutantInfo
  pollutants : List IQAirPollutant
deriving Repr, DecidableEq

/-- An entry of the search endpoint's flat JSON array.  `other` covers JSON
values (null, objects, arrays) that none of the `typeof` tests match. -/
inductive JVal where
  | str (s : String)
  | num (q : ℚ)
  | bool (b : Bool)
  | other
deriving Repr, DecidableEq

/-!  Flat-array record reconstructor: `parseIQAirSearchResponseSimple`. -/

/-- `typeof item === "string" && item.startsWith("/") && !item.includes(".")`. -/
def isAnchorToken (item : String) : Bool :=
  jsStartsWith item "/" && !(jsIncludes item ".")

/-- `item.split("/").filter(Boolean)`. -/
def anchorParts (item : String) : List String :=
  (jsSplitChar item '/').filter (fun p => p ≠ "")

/-- `/^[a-zA-Z0-9]{10,}$/.test(s)`. -/
def isAlnumId (s : String) : Bool :=
  10 ≤ s.length && s.data.all (fun c => c.isAlpha || c.isDigit)

/-- State of the backward window scan (`id`, `aqi`/`estimated`,
`latitude`/`longitude`), initialised to the zero values the code declares. -/
structure BackScanState where
  id : String
  aqi : ℚ
  estimated : Bool
  latitude : ℚ
  longitude : ℚ
deriving Repr, DecidableEq

/-- One iteration `j` of the backward loop
`for (let j = Math.max(0, i - 30); j < i; j++)`. -/
def backScanStep (data : List JVal) (st : BackScanState) (j : Nat) : BackScanState :=
  let prevItem := data.getD j .other
  let st :=
    match prevItem with
    | .str s => if isAlnumId s && st.id == "" then { st with id := s } else st
    | _ => st
  let st :=
    match prevItem with
    | .num q =>
      if 0 < q ∧ q < 600 ∧ st.aqi = 0 then
        match data.getD (j + 1) .other with
        | .bool b => { st with aqi := q, estimated := b }
        | _ => st
      else st
    | _ => st
  let st :=
    match prevItem with
    | .num q =>
      if -180 < q ∧ q < 180 then
        match data.getD (j + 1) .other with
        | .num q2 =>
          if -180 < q2 ∧ q2 < 180 then
            if -90 < q ∧ q < 90 ∧ 1 < ratAbs q then
              { st with latitude := q, longitude := q2 }
            else st
          else st
        | _ => st
      else st
    | _ => st
  st

/-- The record the reconstructor builds for an anchor token `item` found at
index `i` (with `parts = item.split("/").filter(Boolean)`). -/
def buildAnchorRecord (data : List JVal) (i : Nat) (item : String)
    (parts : List String) : IQAirSearchResult :=
  let citySlug := parts.getLastD ""
  let cityName := slugToDisplay citySlug
  let countrySlug := parts.headD ""
  let stateSlug := if parts.length == 3 then parts.getD 1 "" else ""
  let lo := i - 30
  let st := (List.range' lo (i - lo)).foldl (backScanStep data)
    { id := "", aqi := 0, estimated := false, latitude := 0, longitude := 0 }
  let followersCount :=
    ((List.range' (i + 1) (min data.length (i + 20) - (i + 1))).findSome?
      (fun j =>
        match data.getD j .other with
        | .num q => if 100 < q then some q else none
        | _ => none)).getD 0
  { id := st.id
    name := cityName
    state := slugToDisplay stateSlug
    country := slugToDisplay countrySlug
    url := item
    aqi := st.aqi
    estimated := st.estimated
    latitude := st.latitude
    longitude := st.longitude
    followersCount := followersCount }

/-- One iteration of the anchor scan: state is (seen URLs, results so far). -/
def reconStep (data : List JVal) (st : List String × List IQAirSearchResult)
    (i : Nat) : List String × List IQAirSearchResult :=
  match data.getD i .other with
  | .str item =>
    if isAnchorToken item then
      let parts := anchorParts item
      if 2 ≤ parts.length ∧ parts.length ≤ 3 then
        if st.1.contains item then st
        else (item :: st.1, st.2 ++ [buildAnchorRecord data i item parts])
      else st
    else st
  | _ => st

/-- The reconstructed records before the final sort, in anchor order. -/
def rawSearchResults (data : List JVal) : List IQAirSearchResult :=
  ((List.range data.length).foldl (reconStep data) ([], [])).2

/-- The sort comparator (JavaScript convention: negative puts `a` first). -/
def searchCmp (a b : IQAirSearchResult) : ℚ :=
  let aParts := (anchorParts a.url).length
  let bParts := (anchorParts b.url).length
  if aParts = 3 ∧ bParts = 2 then -1
  else if aParts = 2 ∧ bParts = 3 then 1
  else b.followersCount - a.followersCount

/-- `parseIQAirSearchResponseSimple`.  `Array.prototype.sort` is a stable
sort; a stable sort against a consistent comparator has a unique output,
which equals insertion sort ordered by `searchCmp a b ≤ 0`. -/
def parseIQAirSearchResponseSimple (data : List JVal) : List IQAirSearchResult :=
  List.insertionSort (fun a b => searchCmp a b ≤ 0) (rawSearchResults data)

/-!  City resolver: `searchIQAirCities` and `fetchIQAirCityByName`.
The HTTP fetch and `JSON.parse` are abstracted: `data` stands for the
already-decoded flat array of the search endpoint's response; transport
failures and JSON-decode failures are outside the embedded fragment. -/

/-- `searchIQAirCities` (minus transport). -/
def searchIQAirCities (query : String) (data : List JVal) :
    Except String (List IQAirSearchResult) :=
  let normalizedQuery := jsTrim query
  if normalizedQuery = "" then .error "Search query is required"
  else .ok (parseIQAirSearchResponseSimple data)

/-- `c.url.split("/").filter(Boolean).length`. -/
def urlPartsOf (c : IQAirSearchResult) : Nat :=
  ((jsSplitChar c.url '/').filter (fun p => p ≠ "")).length

/-- Tier 1: exact name match (case-insensitive) and 3-part URL. -/
def tierExact3 (nq : String) (c : IQAirSearchResult) : Bool :=
  jsToLower c.name == nq && urlPartsOf c == 3

/-- Tier 2: exact name match, any URL length. -/
def tierExact (nq : String) (c : IQAirSearchResult) : Bool :=
  jsToLower c.name == nq

/-- Tier 3: candidate name contains the query, 3-part URL. -/
def tierNameContains3 (nq : String) (c : IQAirSearchResult) : Bool :=
  jsIncludes (jsToLower c.name) nq && urlPartsOf c == 3

/-- Tier 4: candidate name contains the query, any URL length. -/
def tierNameContains (nq : String) (c : IQAirSearchResult) : Bool :=
  jsIncludes (jsToLower c.name) nq

/-- Tier 5: query contains the candidate name, 3-part URL. -/
def tierQueryContains3 (nq : String) (c : IQAirSearchResult) : Bool :=
  jsIncludes nq (jsToLower c.name) && urlPartsOf c == 3

/-- Tier 6: query contains the candidate name, any URL length. -/
def tierQueryContains (nq : String) (c : IQAirSearchResult) : Bool :=
  jsIncludes nq (jsToLower c.name)

/-- `normalizedQuery.replace(/\s+(city|town)$/, "")`: strips a trailing
"city"/"town" word together with all whitespace immediately before it. -/
def stripCityTownSuffix (q : String) : String :=
  let r := q.data.reverse
  let tryOne (w : List Char) : Option (List Char) :=
    if charsStartWith w r then
      let rest := r.drop 4
      match rest with
      | c :: _ => if isWsChar c then some ((rest.dropWhile isWsChar).reverse) else none
      | [] => none
    else none
  match tryOne "city".data.reverse with
  | some l => ⟨l⟩
  | none =>
    match tryOne "town".data.reverse with
    | some l => ⟨l⟩
    | none => q

/-- Tier 7 (3-part URLs): candidate name equals or contains the
suffix-stripped query. -/
def tierStripped3 (nq : String) (c : IQAirSearchResult) : Bool :=
  let queryNoSuffix := stripCityTownSuffix nq
  let cityLower := jsToLower c.name
  (cityLower == queryNoSuffix || jsIncludes cityLower queryNoSuffix) && urlPartsOf c == 3

/-- Tier 7 (any URL length): candidate name equals or contains the
suffix-stripped query. -/
def tierStrippedAny (nq : String) (c : IQAirSearchResult) : Bool :=
  let queryNoSuffix := stripCityTownSuffix nq
  let cityLower := jsToLower c.name
  cityLower == queryNoSuffix || jsIncludes cityLower queryNoSuffix

/-- Conversion of the chosen search result to an `IQAirCityRanking`. -/
def toRankingRecord (found : IQAirSearchResult) : IQAirCityRanking :=
  let fullUrl :=
    if jsStartsWith found.url "http" then found.url
    else "https://www.iqair.com/us" ++ found.url
  { rank := 0
    city := found.name
    countrySlug := wsRunsToHyphen (jsToLower found.country)
    aqi := found.aqi
    url := fullUrl }

/-- `fetchIQAirCityByName` (minus transport): the tier cascade over the
reconstructed search results. -/
def fetchIQAirCityByName (cityName : String) (data : List JVal) :
    Except String (Option IQAirCityRanking) :=
  let normalizedQuery := jsToLower (jsTrim cityName)
  if normalizedQuery = "" then .error "City name is required"
  else
    match searchIQAirCities cityName data with
    | .error e => .error e
    | .ok searchResults =>
      if searchResults.length == 0 then .ok none
      else
        let found := searchResults.find? (tierExact3 normalizedQuery)
        let found := found <|> searchResults.find? (tierExact normalizedQuery)
        let found := found <|> searchResults.find? (tierNameContains3 normalizedQuery)
        let found := found <|> searchResults.find? (tierNameContains normalizedQuery)
        let found := found <|> searchResults.find? (tierQueryContains3 normalizedQuery)
        let found := found <|> searchResults.find? (tierQueryContains normalizedQuery)
        let found := found <|> searchResults.find? (tierStripped3 normalizedQuery)
        let found := found <|> searchResults.find? (tierStrippedAny normalizedQuery)
        let found := found <|> searchResults.head?
        match found with
        | none => .ok none
        | some f => .ok (some (toRankingRecord f))

/-!  Ranking table parser: `fetchIQAirTopCities` (minus transport: `doc`
stands for the already-fetched, already-loaded HTML document). -/

/-- Pathname of `new URL(s)`, modelling WHATWG parsing for the absolute
http(s) URLs this module constructs; `none` embeds the constructor throwing
(no `scheme://`, or an empty scheme or host), which the caller catches. -/
def urlPathname (s : String) : Option String :=
  let rec split3 : List Char → Option (List Char × List Char)
    | [] => none
    | c :: t =>
      if charsStartWith "://".data (c :: t) then some ([], (c :: t).drop 3)
      else (split3 t).map (fun p => (c :: p.1, p.2))
  match split3 s.data with
  | none => none
  | some (scheme, rest) =>
    if scheme.isEmpty then none
    else
      let host := rest.takeWhile (fun c => !(c == '/' || c == '?' || c == '#'))
      if host.isEmpty then none
      else
        let after := rest.drop host.length
        match after with
        | '/' :: _ => some ⟨after.takeWhile (fun c => !(c == '?' || c == '#'))⟩
        | _ => some "/"

/-- Header test selecting the ranking table:
`headers[1]?.includes("Cities") && headers[2]?.includes("AQI")`. -/
def qualifiesRankingTable (t : HNode) : Bool :=
  let headers :=
    match (findUnder "thead" "tr" false t).head? with
    | some tr => (findTag tr "th").map (fun th => jsTrim (textOf th))
    | none => []
  match headers.get? 1, headers.get? 2 with
  | some h1, some h2 => jsIncludes h1 "Cities" && jsIncludes h2 "AQI"
  | _, _ => false

/-- `$("table").filter(qualifies).first()`. -/
def findRankingTable (doc : HNode) : Option HNode :=
  (findTag doc "table").find? qualifiesRankingTable

/-- City text of a ranking row: `$(tds[0]).find("p").first().text().trim()`. -/
def rowCityText (cityCell : HNode) : String :=
  jsTrim (match (findTag cityCell "p").head? with
          | some p => textOf p
          | none => "")

/-- One body row of the ranking table; `none` embeds the row being skipped
(fewer than 2 data cells, empty city, or NaN AQI). -/
def parseRankingRow (index : Nat) (row : HNode) : Option IQAirCityRanking :=
  let thRank := jsTrim (match (findTag row "th").head? with
                        | some th => textOf th
                        | none => "")
  let tds := findTag row "td"
  match tds with
  | cityCell :: aqiCell :: _ =>
    let city := rowCityText cityCell
    let aqiText := jsTrim (match (findTag aqiCell "p").head? with
                           | some p => textOf p
                           | none => "")
    let aqi := jsParseInt aqiText
    let href :=
      (((descElems row).filter
          (fun e => tagOf e == "a" && (attrOf e "href").isSome)).getLast?.bind
        (fun a => attrOf a "href")).getD ""
    let url := if jsStartsWith href "http" then href else "https://www.iqair.com" ++ href
    let countrySlug :=
      match urlPathname url with
      | some path =>
        let parts := (jsSplitChar path '/').filter (fun p => p ≠ "")
        if 2 ≤ parts.length then parts.getD 1 "" else ""
      | none => ""
    match aqi with
    | none => none
    | some aqiVal =>
      if city = "" then none
      else
        some { rank := (match jsParseInt thRank with
                        | some v => if v = 0 then (index + 1 : Int) else v
                        | none => (index + 1 : Int))
               city := city
               countrySlug := countrySlug
               aqi := (aqiVal : ℚ)
               url := url }
  | _ => none

/-- The `rows.each` loop with its early `return false` break once `limit`
records have been collected. -/
def rankingRowsLoop (limit : Nat) :
    List (Nat × HNode) → List IQAirCityRanking → List IQAirCityRanking
  | [], acc => acc
  | (index, row) :: rest, acc =>
    if limit ≤ acc.length then acc
    else
      match parseRankingRow index row with
      | some r => rankingRowsLoop limit rest (acc ++ [r])
      | none => rankingRowsLoop limit rest acc

/-- `fetchIQAirTopCities` (minus transport). -/
def fetchIQAirTopCities (doc : HNode) (limit : Nat) :
    Except String (List IQAirCityRanking) :=
  match findRankingTable doc with
  | none => .error "IQAir HTML structure: ranking table not found"
  | some table =>
    let rows := findUnder "tbody" "tr" false table
    let result := rankingRowsLoop limit rows.enum []
    if result.length == 0 then
      .error "IQAir HTML parsing: no rows parsed from ranking table"
    else .ok result

/-!  Detail page extractor: the parsing body of `fetchIQAirCityDetailsByName`
(`doc` stands for the already-fetched city page, `baseInfo` for the resolved
ranking record). -/

/-- The unit alternatives of the pollutant-row value regexes. -/
def unitAlts5 : List String := ["µg/m³", "µg", "mg/m³", "ppm", "ppb"]

/-- The unit alternatives of the main-pollutant value regexes. -/
def unitAlts3 : List String := ["µg/m³", "µg", "mg/m³"]

/-- The primary AQI container:
`$('div').filter(cls => cls.includes("aqi-box-shadow") || cls.includes("aqi-bg-")).first()`. -/
def findAqiCard (doc : HNode) : Option HNode :=
  (findTag doc "div").find? (fun el =>
    let cls := (attrOf el "class").getD ""
    jsIncludes cls "aqi-box-shadow" || jsIncludes cls "aqi-bg-")

/-- The plausibility test the AQI strategies apply to a `p` element: its
trimmed text parses to a number in (0, 500]. -/
def aqiNumPred (el : HNode) : Bool :=
  match jsParseInt (jsTrim (textOf el)) with
  | some num => decide (0 < num ∧ num ≤ 500)
  | none => false

/-- The number a `p` element contributes to strategy 2's candidate list
(`null` entries are filtered out by the code's `.filter`). -/
def aqiNumOf (el : HNode) : Option Int :=
  match jsParseInt (jsTrim (textOf el)) with
  | some num => if 0 < num ∧ num ≤ 500 then some num else none
  | none => none

/-- AQI strategy 1: a number in a `p` under the `div` whose text mentions
"AQI". -/
def aqiStrategy1 (aqiCard : HNode) : Option Int :=
  let aqiLabelDiv := (findTag aqiCard "div").find? (fun el =>
    jsIncludes (textOf el) "AQI" || jsIncludes (textOf el) "US AQI")
  match aqiLabelDiv with
  | none => none
  | some d =>
    let aqiText := (((findTag d "p").find? aqiNumPred).map
      (fun el => jsTrim (textOf el))).getD ""
    if aqiText = "" then none
    else jsParseInt aqiText

/-- AQI strategy 2: the largest plausible (`0 < n ≤ 500`) number among the
container's `p` texts. -/
def aqiStrategy2 (aqiCard : HNode) : Option Int :=
  let allNumbers := (findTag aqiCard "p").filterMap aqiNumOf
  match allNumbers with
  | [] => none
  | x :: xs => some (xs.foldl max x)

/-- AQI strategy 3: regex `(?:AQI|US AQI)[\s:]*(\d{1,3})` over the
container's full text. -/
def aqiStrategy3 (aqiCard : HNode) : Option Int :=
  (aqiRegexCapture (textOf aqiCard)).map (fun n => (n : Int))

/-- The AQI extraction sequence of `fetchIQAirCityDetailsByName`, exactly as
coded: `aqi` starts from the baseline (`baseInfo.aqi || 0`, the identity on a
rational), strategy 1 may overwrite it, and strategies 2 and 3 each run only
while the current value is 0. -/
def computeAqi (aqiCard : HNode) (baseAqi : ℚ) : ℚ :=
  let aqi := baseAqi
  let aqi := match aqiStrategy1 aqiCard with
             | some v => (v : ℚ)
             | none => aqi
  let aqi := if aqi = 0 then
               match aqiStrategy2 aqiCard with
               | some v => (v : ℚ)
               | none => aqi
             else aqi
  let aqi := if aqi = 0 then
               match aqiStrategy3 aqiCard with
               | some v => (v : ℚ)
               | none => aqi
             else aqi
  aqi

/-- Level label extraction (specific selector, then vocabulary fallback). -/
def computeLevel (aqiCard : HNode) : String :=
  let level := ((findTagClass aqiCard "p" "font-body-l-medium").head?.map
    (fun el => jsTrim (textOf el))).getD ""
  if level = "" then
    (((findTag aqiCard "p").find? (fun el =>
        let levelLower := jsToLower (jsTrim (textOf el))
        jsIncludes levelLower "good" || jsIncludes levelLower "moderate" ||
          jsIncludes levelLower "unhealthy" || jsIncludes levelLower "hazardous" ||
          jsIncludes levelLower "sensitive")).map
      (fun el => jsTrim (textOf el))).getD ""
  else level

/-- Main pollutant, strategy 1: the row `div.font-body-m-medium` containing
"Main pollutant"; returns `(mainName, mainValue, mainUnit)` with the initial
values `("", 0, "µg/m³")` untouched where the code assigns nothing. -/
def computeMainPollutantRow (aqiCard : HNode) : String × Option ℚ × String :=
  let mainName := ""
  let mainValue : Option ℚ := some 0
  let mainUnit := "µg/m³"
  match (findTagClass aqiCard "div" "font-body-m-medium").find?
      (fun el => jsIncludes (textOf el) "Main pollutant") with
  | none => (mainName, mainValue, mainUnit)
  | some mainRow =>
    let mainTexts := findTag mainRow "p"
    let mainName :=
      match mainTexts.find? (fun p =>
          let text := jsTrim (textOf p)
          text ≠ "" && !(jsIncludes (jsToLower text) "main pollutant") &&
            !(valueShapeTest text) && text.length < 20) with
      | some p => jsTrim (textOf p)
      | none => mainName
    match mainTexts.find? (fun p =>
        let text := jsTrim (textOf p)
        text ≠ "" && valueShapeTest text) with
    | some p =>
      let mainValueText := jsTrim (textOf p)
      (match jsSplitWs mainValueText with
       | [] => (mainName, mainValue, mainUnit)
       | numPart :: unitParts =>
         let u := String.intercalate " " unitParts
         (mainName, jsParseFloat (jsReplaceFirst numPart "," "."),
          if u = "" then "µg/m³" else u))
    | none =>
      match numUnitScan unitAlts3 (textOf mainRow) with
      | some (numStr, unitStr) =>
        (mainName, jsParseFloat (jsReplaceFirst numStr "," "."),
         if unitStr = "" then "µg/m³" else unitStr)
      | none => (mainName, mainValue, mainUnit)

/-- Main pollutant after strategy 2 (regex sweep of the whole container when
strategy 1 left the name empty or the value falsy). -/
def computeMainPollutant (aqiCard : HNode) : String × Option ℚ × String :=
  let (mainName, mainValue, mainUnit) := computeMainPollutantRow aqiCard
  if mainName = "" ∨ mainValue = none ∨ mainValue = some 0 then
    let allText := textOf aqiCard
    if jsIncludes allText "Main pollutant" then
      let mainName :=
        match mainNameRegex allText with
        | some g => g
        | none => mainName
      match mainValueRegex unitAlts3 allText with
      | some (numStr, unitStr) =>
        (mainName, jsParseFloat (jsReplaceFirst numStr "," "."),
         if unitStr = "" then "µg/m³" else unitStr)
      | none => (mainName, mainValue, mainUnit)
    else (mainName, mainValue, mainUnit)
  else (mainName, mainValue, mainUnit)

/-- The intermediate fields of one pollutant-table row, up to (but not
including) the final drop guard: `(name, description, value, unit)`, with
`value = none` embedding NaN.  `none` overall embeds the early returns (no
button, or no name `div`). -/
def pollutantRowRaw (tr : HNode) : Option (String × String × Option ℚ × String) :=
  match (findTag tr "button").head? with
  | none => none
  | some btn =>
    let nameDiv := (findTag btn "div").find? (fun d =>
      !(findTagClass d "div" "text-gray-500").isEmpty)
    let nameDiv :=
      match nameDiv with
      | some d => some d
      | none =>
        (findTag btn "div").find? (fun d =>
          let text := jsTrim (textOf d)
          text ≠ "" && (jsIncludes text "PM2.5" || jsIncludes text "PM10" ||
            jsIncludes text "O3" || jsIncludes text "NO2" ||
            jsIncludes text "SO2" || jsIncludes text "CO"))
    match nameDiv with
    | none => none
    | some nd =>
      let description :=
        match (findTagClass nd "div" "text-gray-500").head? with
        | some d => jsTrim (textOf d)
        | none => ""
      let fullText := jsTrim (textOf nd)
      let name := jsTrim (jsReplaceFirst fullText description "")
      let name :=
        if 10 < name.length then
          match pollutantCodeRegex name with
          | some code => code
          | none => (jsSplitWs name).headD ""
        else name
      let valueSpans := findTagClass btn "span" "font-body-m-medium"
      let (value, unit) :=
        match valueSpans with
        | s0 :: s1 :: _ =>
          let valueText := jsTrim (textOf s0)
          let unitText := jsTrim (textOf s1)
          (jsParseFloat (jsReplaceFirst valueText "," "."),
           if unitText = "" then "µg/m³" else unitText)
        | _ =>
          match numUnitScan unitAlts5 (textOf btn) with
          | some (numStr, u) =>
            (jsParseFloat (jsReplaceFirst numStr "," "."),
             if u = "" then "µg/m³" else u)
          | none =>
            match numUnitScan unitAlts5 (textOf tr) with
            | some (numStr, u) =>
              (jsParseFloat (jsReplaceFirst numStr "," "."),
               if u = "" then "µg/m³" else u)
            | none => ((some 0 : Option ℚ), "µg/m³")
      some (name, description, value, unit)

/-- One pollutant-table row, including the drop guard
`if (!name || Number.isNaN(value) || value === 0) return`. -/
def extractPollutantRow (tr : HNode) : Option IQAirPollutant :=
  match pollutantRowRaw tr with
  | none => none
  | some (name, description, value, unit) =>
    if name = "" ∨ value = none ∨ value = some 0 then none
    else
      some { name := name
             description := description
             -- the guard just excluded `none`; `getD` extracts the number
             value := value.getD 0
             unit := unit }

/-- The pollutants tables: title exactly "Air pollutants", else any table
whose title mentions "pollutant". -/
def pollutantTables (doc : HNode) : List HNode :=
  let t := (findTag doc "table").filter (fun el => attrOf el "title" == some "Air pollutants")
  if t.isEmpty then
    (findTag doc "table").filter (fun el =>
      match attrOf el "title" with
      | some title => title ≠ "" && jsIncludes (jsToLower title) "pollutant"
      | none => false)
  else t

/-- The body rows scanned for pollutants (all matched tables, in order). -/
def pollutantRows (doc : HNode) : List HNode :=
  (pollutantTables doc).flatMap (fun t => findUnder "tbody" "tr" false t)

/-- The full pollutant list of a detail page. -/
def computePollutants (doc : HNode) : List IQAirPollutant :=
  let tables := pollutantTables doc
  if tables.isEmpty then []
  else (pollutantRows doc).filterMap extractPollutantRow

/-- The parsing body of `fetchIQAirCityDetailsByName`: everything after the
city page has been fetched.  Fails exactly when the primary AQI container is
missing. -/
def extractCityDetails (doc : HNode) (baseInfo : IQAirCityRanking) :
    Except String IQAirCityDetails :=
  match findAqiCard doc with
  | none => .error "IQAir HTML structure: AQI main card not found"
  | some aqiCard =>
    let aqi := computeAqi aqiCard baseInfo.aqi
    let level := computeLevel aqiCard
    let (mainName, mainValue, mainUnit) := computeMainPollutant aqiCard
    let pollutants := computePollutants doc
    let (mainName, mainValue, mainUnit) :=
      if mainName = "" ∨ mainValue = none ∨ mainValue = some 0 then
        match pollutants with
        | firstPollutant :: _ =>
          (if mainName = "" then firstPollutant.name else mainName,
           (match mainValue with
            | none => some firstPollutant.value
            | some v => if v = 0 then some firstPollutant.value else some v),
           if mainUnit = "" then firstPollutant.unit else mainUnit)
        | [] =>
          (if mainName = "" then "PM2.5" else mainName,
           (match mainValue with
            | none => (some 0 : Option ℚ)
            | some v => some v),
           if mainUnit = "" then "µg/m³" else mainUnit)
      else (mainName, mainValue, mainUnit)
    .ok { rank := baseInfo.rank
          city := baseInfo.city
          countrySlug := baseInfo.countrySlug
          aqi := aqi
          url := baseInfo.url
          level := level
          mainPollutant := { name := mainName
                             -- after the fallback chain the value is never
                             -- NaN; `getD` extracts the number
                             value := mainValue.getD 0
                             unit := mainUnit }
          pollutants := pollutants }

/-- `fetchIQAirCityDetailsByName` (minus transport): resolve, then extract. -/
def fetchIQAirCityDetailsByName (cityName : String) (searchData : List JVal)
    (doc : HNode) : Except String (Option IQAirCityDetails) :=
  match fetchIQAirCityByName cityName searchData with
  | .error e => .error e
  | .ok none => .ok none
  | .ok (some baseInfo) =>
    match extractCityDetails doc baseInfo with
    | .error e => .error e
    | .ok d => .ok (some d)

/-!  Statement-side characterizations and concrete sample inputs used by the
theorems below. -/

/-- Every reconstructed record has a 2- or 3-segment URL. -/
def depthOK (r : IQAirSearchResult) : Prop :=
  urlPartsOf r = 2 ∨ urlPartsOf r = 3

/-- Rank component of the comparator's sort key: depth 3 before anything else. -/
def depthRank (r : IQAirSearchResult) : Nat :=
  if urlPartsOf r = 3 then 0 else 1

/-- The comparator's equivalence-class key: two records compare equal under
`searchCmp` exactly when their keys coincide (given `depthOK`). -/
def searchSortKey (r : IQAirSearchResult) : Nat × ℚ :=
  (depthRank r, r.followersCount)

/-- The qualifying condition of the backward AQI window search at index `j`:
a number strictly between 0 and 600 immediately followed by a boolean. -/
def aqiCandidateAt (data : List JVal) (j : Nat) : Option (ℚ × Bool) :=
  match data.getD j .other with
  | .num q =>
    if 0 < q ∧ q < 600 then
      match data.getD (j + 1) .other with
      | .bool b => some (q, b)
      | _ => none
    else none
  | _ => none

/-- All parseable body rows of a ranking table, in document order (the
reference list against which the limited loop is characterized). -/
def parsedRankingRows (t : HNode) : List IQAirCityRanking :=
  ((findUnder "tbody" "tr" false t).enum).filterMap
    (fun p => parseRankingRow p.1 p.2)

/-- Search payload for the Tashkent scenario: a 2-segment and a 3-segment
anchor for the same city. -/
def sampleTashkentData : List JVal :=
  [.str "/uzbekistan/tashkent", .str "/uzbekistan/tashkent/tashkent"]

/-- Payload with two qualifying `{number, boolean}` pairs in the backward
window of the anchor at index 4: `5` (earliest) and `7` (nearest). -/
def sampleWindowData : List JVal :=
  [.num 5, .bool true, .num 7, .bool true, .str "/a/b"]

/-- Payload whose reconstruction yields `Otherplace` (3-segment) before
`Springfield` (2-segment). -/
def sampleTier7Data : List JVal :=
  [.str "/x/y/otherplace", .str "/us/springfield"]

/-- Payload reconstructing to the single candidate `Springfield`. -/
def sampleTier7Single : List JVal :=
  [.str "/usa/illinois/springfield"]

/-- A table cell holding one `p` text, as in the ranking table. -/
def sampleCell (tag txt : String) : HNode :=
  .elem tag [] [.elem "p" [] [.textNode txt]]

/-- Ranking row: rank 1, city Lahore, AQI 187. -/
def sampleRowLahore : HNode :=
  .elem "tr" [] [
    .elem "th" [] [.textNode "1"],
    sampleCell "td" "Lahore",
    sampleCell "td" "187",
    .elem "td" [] [.elem "a" [("href", "/us/pakistan/lahore")] [.textNode "go"]]]

/-- Ranking row: rank 2, city Delhi, AQI 172. -/
def sampleRowDelhi : HNode :=
  .elem "tr" [] [
    .elem "th" [] [.textNode "2"],
    sampleCell "td" "Delhi",
    sampleCell "td" "172",
    .elem "td" [] [.elem "a" [("href", "/us/india/delhi")] [.textNode "go"]]]

/-- Ranking row whose printed AQI is the negative number "-5". -/
def sampleRowNegative : HNode :=
  .elem "tr" [] [
    .elem "th" [] [.textNode "1"],
    sampleCell "td" "GoodCity",
    sampleCell "td" "-5",
    .elem "td" [] [.elem "a" [("href", "/us/pakistan/lahore")] [.textNode "go"]]]

/-- A ranking document with the qualifying header pair and the given rows. -/
def sampleRankingDoc (rows : List HNode) : HNode :=
  .elem "html" [] [
    .elem "table" [] [
      .elem "thead" [] [.elem "tr" [] [
        .elem "th" [] [.textNode ""],
        .elem "th" [] [.textNode "Major Cities"],
        .elem "th" [] [.textNode "US AQI"]]],
      .elem "tbody" [] rows]]

/-- An AQI container with a plausible number but no "AQI" label anywhere. -/
def sampleAqiCard : HNode :=
  .elem "div" [("class", "aqi-box-shadow x")] [.elem "p" [] [.textNode "77"]]

/-- A detail page holding only `sampleAqiCard`. -/
def sampleAqiDoc : HNode :=
  .elem "html" [] [sampleAqiCard]

/-- A baseline ranking record with a nonzero AQI of 42. -/
def sampleBaseline : IQAirCityRanking :=
  { rank := 3, city := "Lahore", countrySlug := "pakistan", aqi := 42
    url := "https://www.iqair.com/us/pakistan/lahore" }

/-- A pollutant row whose text "PM2.5 — µg/m³" holds no numeric token. -/
def samplePollutantRowNoNumber : HNode :=
  .elem "tr" [] [.elem "td" [] [.elem "button" [] [
    .elem "div" [] [
      .textNode "PM2.5 — µg/m³",
      .elem "div" [("class", "text-gray-500")] [.textNode "Fine particles"]]]]]

/-- A pollutant row with value spans "80.5" / "µg/m³". -/
def samplePollutantRowGood : HNode :=
  .elem "tr" [] [.elem "td" [] [.elem "button" [] [
    .elem "div" [] [
      .textNode "PM2.5",
      .elem "div" [("class", "text-gray-500")] [.textNode "Fine particles"]],
    .elem "span" [("class", "font-body-m-medium")] [.textNode "80.5"],
    .elem "span" [("class", "font-body-m-medium")] [.textNode "µg/m³"]]]]

/-- A detail page with the AQI card and a pollutants table holding both
sample rows. -/
def samplePollutantDoc : HNode :=
  .elem "html" [] [
    sampleAqiCard,
    .elem "table" [("title", "Air pollutants")] [
      .elem "tbody" [] [samplePollutantRowNoNumber, samplePollutantRowGood]]]

/-- The 3-segment Tashkent candidate as reconstructed from
`sampleTashkentData`. -/
def sampleTashkent3 : IQAirSearchResult :=
  { id := "", name := "Tashkent", state := "Tashkent", country := "Uzbekistan"
    url := "/uzbekistan/tashkent/tashkent", aqi := 0, estimated := false
    latitude := 0, longitude := 0, followersCount := 0 }

/-- The details record extracted from `samplePollutantDoc` over
`sampleBaseline`. -/
def samplePollutantDetails : IQAirCityDetails :=
  { rank := 3, city := "Lahore", countrySlug := "pakistan", aqi := 42
    url := "https://www.iqair.com/us/pakistan/lahore", level := ""
    mainPollutant := { name := "PM2.5", value := mkRat 161 2, unit := "µg/m³" }
    pollutants := [{ name := "PM2.5", description := "Fine particles"
                     value := mkRat 161 2, unit := "µg/m³" }] }

/-- A document containing no table at all. -/
def sampleEmptyDoc : HNode := .elem "html" [] []

/-- A qualifying ranking table whose single body row has no data cells. -/
def sampleBadRowsDoc : HNode := sampleRankingDoc [.elem "tr" [] []]

/-- The qualifying table inside `sampleBadRowsDoc`. -/
def sampleBadRowsTable : HNode :=
  .elem "table" [] [
    .elem "thead" [] [.elem "tr" [] [
      .elem "th" [] [.textNode ""],
      .elem "th" [] [.textNode "Major Cities"],
      .elem "th" [] [.textNode "US AQI"]]],
    .elem "tbody" [] [.elem "tr" [] []]]

/-- Decidable equality for `Except` results (not provided by core). -/
instance exceptDecEq {ε α : Type} [DecidableEq ε] [DecidableEq α] :
    DecidableEq (Except ε α) := fun a b =>
  match a, b with
  | .ok x, .ok y =>
    if h : x = y then .isTrue (by rw [h]) else .isFalse (by simp [h])
  | .error x, .error y =>
    if h : x = y then .isTrue (by rw [h]) else .isFalse (by simp [h])
  | .ok _, .error _ => .isFalse (by simp)
  | .error _, .ok _ => .isFalse (by simp)

/-!  Helper lemmas. -/

/-- Lowercasing maps characters one-to-one; it cannot empty a string. -/
theorem jsToLower_ne_empty {s : String} (h : s ≠ "") : jsToLower s ≠ "" := by
  intro heq
  apply h
  obtain ⟨l⟩ := s
  have hmap : (l.map Char.toLower) = [] := congrArg String.data heq
  have hnil : l = [] := List.map_eq_nil_iff.mp hmap
  simp [hnil]

/-- A successful `find?` forces a nonempty list. -/
theorem find_ne_nil {α : Type} {p : α → Bool} {l : List α} {c : α}
    (h : l.find? p = some c) : l ≠ [] := by
  intro hl
  rw [hl] at h
  simp at h

/-- C9: `resolve` fails with the validation error on an empty or
whitespace-only name, and returns `null` (not an error) when the name is
non-empty but the reconstructor yields zero candidates. -/
theorem resolver_empty_and_nomatch (q : String) (data : List JVal) :
    (jsTrim q = "" →
      fetchIQAirCityByName q data = .error "City name is required") ∧
    (jsTrim q ≠ "" → parseIQAirSearchResponseSimple data = [] →
      fetchIQAirCityByName q data = .ok none) := by
  constructor
  · intro h
    unfold fetchIQAirCityByName
    rw [h]
    simp [jsToLower]
  · intro h h2
    unfold fetchIQAirCityByName searchIQAirCities
    rw [if_neg (jsToLower_ne_empty h), if_neg h]
    simp [h2]

/-- Witness for `resolver_empty_and_nomatch` at the whitespace-only name
`"  "` and the non-matching name `"x"` over an empty payload. -/
theorem resolver_empty_and_nomatch_witness :
    fetchIQAirCityByName "  " ([] : List JVal) = .error "City name is required" ∧
    fetchIQAirCityByName "x" ([] : List JVal) = .ok none :=
  ⟨(resolver_empty_and_nomatch "  " []).1 (by decide),
   (resolver_empty_and_nomatch "x" []).2 (by decide) (by decide)⟩

/-- C1: whenever the reconstructed candidate set contains a result whose
lowercased name equals the normalized query and whose URL has 3 segments,
`resolve` returns the first such result (tier 1 wins over every later tier),
and that result is an exact-name 3-segment match. -/
theorem resolver_exact_three_segment_tier_wins (q : String) (data : List JVal)
    (c : IQAirSearchResult) (hq : jsTrim q ≠ "")
    (hfind : (parseIQAirSearchResponseSimple data).find?
        (tierExact3 (jsToLower (jsTrim q))) = some c) :
    fetchIQAirCityByName q data = .ok (some (toRankingRecord c)) ∧
      tierExact3 (jsToLower (jsTrim q)) c = true := by
  refine ⟨?_, List.find?_some hfind⟩
  have hne : parseIQAirSearchResponseSimple data ≠ [] := find_ne_nil hfind
  unfold fetchIQAirCityByName searchIQAirCities
  rw [if_neg (jsToLower_ne_empty hq), if_neg hq]
  have hlen : ((parseIQAirSearchResponseSimple data).length == 0) = false := by
    simp [List.length_eq_zero, hne]
  simp only [hlen, hfind, Bool.false_eq_true, if_false, Option.some_orElse]

/-- Witness for `resolver_exact_three_segment_tier_wins`: the spec's
Tashkent scenario, where both the 2-segment and the 3-segment candidate are
present and the 3-segment record is returned. -/
theorem resolver_exact_three_segment_tier_wins_witness :
    fetchIQAirCityByName "tashkent" sampleTashkentData =
      .ok (some (toRankingRecord sampleTashkent3)) ∧
    tierExact3 (jsToLower (jsTrim "tashkent")) sampleTashkent3 = true :=
  resolver_exact_three_segment_tier_wins "tashkent" sampleTashkentData
    sampleTashkent3 (by decide) (by decide)

/-- C5 counterexample: resolving "spring city" against candidates
`Otherplace` (3-segment, first after sorting) and `Springfield` (2-segment)
returns `Springfield` at tier 7, although the suffix-stripped query
"spring" does not contain the name "springfield" — so tier 7 matches in
the direction of tiers 3/4 (name contains query), not that of tiers 5/6
(query contains name); under the claimed direction the cascade would have
fallen through to tier 8 and returned the first candidate `Otherplace`. -/
theorem resolver_tier7_direction_cex :
    fetchIQAirCityByName "spring city" sampleTier7Data =
      .ok (some { rank := 0, city := "Springfield", countrySlug := "us", aqi := 0,
                  url := "https://www.iqair.com/us/us/springfield" }) ∧
    stripCityTownSuffix (jsToLower (jsTrim "spring city")) = "spring" ∧
    jsIncludes "spring" (jsToLower "Springfield") = false ∧
    (parseIQAirSearchResponseSimple sampleTier7Data).head?.map
      (fun r => r.name) = some "Otherplace" := by
  refine ⟨by decide, by decide, by decide, by decide⟩

/-- C5 amended: when tiers 1–6 all fail, the resolver's tier 7 matches in
the direction of tiers 3/4 — the candidate's lowercased name equals or
contains the suffix-stripped query — trying 3-segment URLs first and then
any segment count, before falling back to the first candidate. -/
theorem resolver_tier7_amended (q : String) (data : List JVal)
    (hq : jsTrim q ≠ "")
    (h1 : (parseIQAirSearchResponseSimple data).find?
      (tierExact3 (jsToLower (jsTrim q))) = none)
    (h2 : (parseIQAirSearchResponseSimple data).find?
      (tierExact (jsToLower (jsTrim q))) = none)
    (h3 : (parseIQAirSearchResponseSimple data).find?
      (tierNameContains3 (jsToLower (jsTrim q))) = none)
    (h4 : (parseIQAirSearchResponseSimple data).find?
      (tierNameContains (jsToLower (jsTrim q))) = none)
    (h5 : (parseIQAirSearchResponseSimple data).find?
      (tierQueryContains3 (jsToLower (jsTrim q))) = none)
    (h6 : (parseIQAirSearchResponseSimple data).find?
      (tierQueryContains (jsToLower (jsTrim q))) = none) :
    fetchIQAirCityByName q data =
      .ok ((((parseIQAirSearchResponseSimple data).find?
              (tierStripped3 (jsToLower (jsTrim q))) <|>
             (parseIQAirSearchResponseSimple data).find?
              (tierStrippedAny (jsToLower (jsTrim q)))) <|>
             (parseIQAirSearchResponseSimple data).head?).map toRankingRecord) := by
  unfold fetchIQAirCityByName searchIQAirCities
  rw [if_neg (jsToLower_ne_empty hq), if_neg hq]
  by_cases hrs : parseIQAirSearchResponseSimple data = []
  · simp [hrs]
  · have hlen : ((parseIQAirSearchResponseSimple data).length == 0) = false := by
      simp [List.length_eq_zero, hrs]
    simp only [hlen, h1, h2, h3, h4, h5, h6, Bool.false_eq_true, if_false,
      Option.none_orElse]
    cases hf : ((parseIQAirSearchResponseSimple data).find?
          (tierStripped3 (jsToLower (jsTrim q))) <|>
        (parseIQAirSearchResponseSimple data).find?
          (tierStrippedAny (jsToLower (jsTrim q)))) <|>
        (parseIQAirSearchResponseSimple data).head? with
    | none => simp
    | some f => simp

/-- Witness for `resolver_tier7_amended`: the single candidate `Springfield`
is matched at tier 7 by the stripped query "spring". -/
theorem resolver_tier7_amended_witness :
    fetchIQAirCityByName "spring city" sampleTier7Single =
      .ok ((((parseIQAirSearchResponseSimple sampleTier7Single).find?
              (tierStripped3 (jsToLower (jsTrim "spring city"))) <|>
             (parseIQAirSearchResponseSimple sampleTier7Single).find?
              (tierStrippedAny (jsToLower (jsTrim "spring city")))) <|>
             (parseIQAirSearchResponseSimple sampleTier7Single).head?).map
        toRankingRecord) :=
  resolver_tier7_amended "spring city" sampleTier7Single (by decide) (by decide)
    (by decide) (by decide) (by decide) (by decide) (by decide)

/-- C10: whenever the primary AQI container is found, the extracted details
record preserves the baseline's `rank`, `city`, `countrySlug` and `url`
fields unchanged (only `aqi` may be replaced, and `level`, `mainPollutant`
and `pollutants` are added). -/
theorem details_preserve_baseline_fields (doc : HNode)
    (base : IQAirCityRanking) (d : IQAirCityDetails)
    (h : extractCityDetails doc base = .ok d) :
    d.rank = base.rank ∧ d.city = base.city ∧
      d.countrySlug = base.countrySlug ∧ d.url = base.url := by
  unfold extractCityDetails at h
  cases hcard : findAqiCard doc with
  | none => rw [hcard] at h; simp at h
  | some card =>
    rw [hcard] at h
    obtain ⟨mn, mv, mu⟩ := computeMainPollutant card
    simp only [] at h
    split at h <;> · injection h with h; subst h; simp

/-- Witness for `details_preserve_baseline_fields` at the sample detail
page over the baseline `sampleBaseline`. -/
theorem details_preserve_baseline_fields_witness :
    samplePollutantDetails.rank = sampleBaseline.rank ∧
    samplePollutantDetails.city = sampleBaseline.city ∧
    samplePollutantDetails.countrySlug = sampleBaseline.countrySlug ∧
    samplePollutantDetails.url = sampleBaseline.url :=
  details_preserve_baseline_fields samplePollutantDoc sampleBaseline
    samplePollutantDetails (by decide)

/-- Strategy 1 only succeeds with a number a qualifying `p` supplied, and
those lie in (0, 500]. -/
theorem aqiStrategy1_pos (card : HNode) (v : Int) (h : aqiStrategy1 card = some v) :
    0 < v := by
  simp only [aqiStrategy1] at h
  cases hld : (findTag card "div").find? (fun el =>
      jsIncludes (textOf el) "AQI" || jsIncludes (textOf el) "US AQI") with
  | none => simp [hld] at h
  | some d =>
    simp only [hld] at h
    cases hp : (findTag d "p").find? aqiNumPred with
    | none => simp [hp] at h
    | some el =>
      simp only [hp, Option.map_some', Option.getD_some] at h
      have hpred := List.find?_some hp
      unfold aqiNumPred at hpred
      cases hint : jsParseInt (jsTrim (textOf el)) with
      | none => rw [hint] at hpred; simp at hpred
      | some num =>
        rw [hint] at hpred
        simp at hpred
        split at h
        · simp at h
        · rw [hint] at h
          injection h with h
          omega

/-- Elements collected by strategy 2 are positive. -/
theorem aqiNumOf_pos {el : HNode} {v : Int} (h : aqiNumOf el = some v) : 0 < v := by
  unfold aqiNumOf at h
  cases hint : jsParseInt (jsTrim (textOf el)) with
  | none => rw [hint] at h; simp at h
  | some num =>
    simp only [hint] at h
    split at h
    · rename_i hcond
      injection h with h
      omega
    · simp at h

/-- A fold of `max` over a list is bounded below by its start. -/
theorem le_foldl_max (x : Int) (xs : List Int) : x ≤ xs.foldl max x := by
  induction xs generalizing x with
  | nil => exact le_refl x
  | cons y ys ih => exact le_trans (le_max_left x y) (ih (max x y))

/-- Strategy 2 values are positive. -/
theorem aqiStrategy2_pos (card : HNode) (v : Int) (h : aqiStrategy2 card = some v) :
    0 < v := by
  simp only [aqiStrategy2] at h
  cases hl : (findTag card "p").filterMap aqiNumOf with
  | nil => rw [hl] at h; simp at h
  | cons x xs =>
    simp only [hl] at h
    injection h with h
    have hx : x ∈ (findTag card "p").filterMap aqiNumOf := by rw [hl]; exact List.mem_cons_self x xs
    obtain ⟨el, _, hel⟩ := List.mem_filterMap.mp hx
    have := aqiNumOf_pos hel
    have := le_foldl_max x xs
    omega

/-- C2 counterexample: on a container with no "AQI" label (strategy 1
fails) but a plausible number 77 (strategy 2 would succeed), a nonzero
baseline AQI of 42 is returned — the baseline is used as soon as strategy 1
fails, not only "if all three strategies fail" as claimed. -/
theorem aqi_baseline_shortcircuits_cex :
    (extractCityDetails sampleAqiDoc sampleBaseline).toOption.map
      (fun d => d.aqi) = some 42 ∧
    aqiStrategy1 sampleAqiCard = none ∧
    aqiStrategy2 sampleAqiCard = some 77 ∧
    (42 : ℚ) ≠ 77 := by
  refine ⟨by decide, by decide, by decide, by decide⟩

/-- C2 amended: the extracted AQI is strategy 1's value when it succeeds;
otherwise the baseline AQI whenever it is nonzero; strategies 2 and then 3
are consulted, in that order, only when the baseline is zero and strategy 1
failed; the terminal fallback is 0. -/
theorem aqi_strategy_cascade_amended (card : HNode) (b : ℚ) :
    computeAqi card b =
      match aqiStrategy1 card with
      | some v => (v : ℚ)
      | none =>
        if b ≠ 0 then b
        else
          match aqiStrategy2 card with
          | some v => (v : ℚ)
          | none =>
            match aqiStrategy3 card with
            | some v => (v : ℚ)
            | none => 0 := by
  unfold computeAqi
  cases h1 : aqiStrategy1 card with
  | some v =>
    have hv : (0 : Int) < v := aqiStrategy1_pos card v h1
    have hvq : ((v : ℚ)) ≠ 0 := by
      exact_mod_cast (by omega : v ≠ 0)
    simp [hvq]
  | none =>
    by_cases hb : b = 0
    · subst hb
      simp only [ne_eq, not_true_eq_false, if_false, if_pos rfl]
      cases h2 : aqiStrategy2 card with
      | some v =>
        have hv : (0 : Int) < v := aqiStrategy2_pos card v h2
        have hvq : ((v : ℚ)) ≠ 0 := by
          exact_mod_cast (by omega : v ≠ 0)
        simp [hvq]
      | none =>
        simp
    · simp [hb]

/-- The limited row loop collects exactly the first `limit - acc.length`
parseable rows, in document order. -/
theorem rankingRowsLoop_eq (limit : Nat) (rows : List (Nat × HNode))
    (acc : List IQAirCityRanking) :
    rankingRowsLoop limit rows acc =
      acc ++ (rows.filterMap (fun p => parseRankingRow p.1 p.2)).take
        (limit - acc.length) := by
  induction rows generalizing acc with
  | nil => simp [rankingRowsLoop]
  | cons p rest ih =>
    obtain ⟨index, row⟩ := p
    unfold rankingRowsLoop
    by_cases hlim : limit ≤ acc.length
    · rw [if_pos hlim]
      have : limit - acc.length = 0 := by omega
      simp [this]
    · rw [if_neg hlim]
      cases hrow : parseRankingRow index row with
      | some r =>
        have hfm : (((index, row) :: rest).filterMap (fun p => parseRankingRow p.1 p.2)) =
            r :: rest.filterMap (fun p => parseRankingRow p.1 p.2) := by
          simp [List.filterMap_cons, hrow]
        show rankingRowsLoop limit rest (acc ++ [r]) = _
        rw [ih, hfm]
        have hlen : (acc ++ [r]).length = acc.length + 1 := by simp
        rw [hlen]
        have htake : limit - acc.length = (limit - (acc.length + 1)) + 1 := by omega
        rw [htake, List.take_succ_cons]
        simp
      | none =>
        have hfm : (((index, row) :: rest).filterMap (fun p => parseRankingRow p.1 p.2)) =
            rest.filterMap (fun p => parseRankingRow p.1 p.2) := by
          simp [List.filterMap_cons, hrow]
        show rankingRowsLoop limit rest acc = _
        rw [ih, hfm]

/-- C6: a missing structural anchor is fatal: with no qualifying ranking
table `getTopCities` fails with the table-not-found parse error; with a
qualifying table but zero parseable rows it fails with the no-rows parse
error; and the detail extractor fails with the AQI-card parse error when the
primary container is absent.  No partial result is returned in any of the
three cases. -/
theorem structural_anchor_fatal (doc docDetail : HNode) (limit : Nat)
    (t : HNode) (base : IQAirCityRanking) :
    (findRankingTable doc = none →
      fetchIQAirTopCities doc limit =
        .error "IQAir HTML structure: ranking table not found") ∧
    (findRankingTable doc = some t → parsedRankingRows t = [] →
      fetchIQAirTopCities doc limit =
        .error "IQAir HTML parsing: no rows parsed from ranking table") ∧
    (findAqiCard docDetail = none →
      extractCityDetails docDetail base =
        .error "IQAir HTML structure: AQI main card not found") := by
  refine ⟨?_, ?_, ?_⟩
  · intro h
    unfold fetchIQAirTopCities
    rw [h]
  · intro h hrows
    unfold fetchIQAirTopCities
    rw [h]
    have := rankingRowsLoop_eq limit (findUnder "tbody" "tr" false t).enum []
    unfold parsedRankingRows at hrows
    simp only [List.nil_append, List.length_nil, Nat.sub_zero] at this
    show (if ((rankingRowsLoop limit (findUnder "tbody" "tr" false t).enum []).length == 0) = true
          then Except.error "IQAir HTML parsing: no rows parsed from ranking table"
          else _) = _
    rw [this, hrows]
    simp
  · intro h
    unfold extractCityDetails
    rw [h]

/-- Witness for `structural_anchor_fatal`: a document with no table, a
qualifying table whose only row has no data cells, and a detail page with no
`div` at all. -/
theorem structural_anchor_fatal_witness :
    fetchIQAirTopCities sampleEmptyDoc 10 =
      .error "IQAir HTML structure: ranking table not found" ∧
    fetchIQAirTopCities sampleBadRowsDoc 10 =
      .error "IQAir HTML parsing: no rows parsed from ranking table" ∧
    extractCityDetails sampleEmptyDoc sampleBaseline =
      .error "IQAir HTML structure: AQI main card not found" :=
  ⟨(structural_anchor_fatal sampleEmptyDoc sampleEmptyDoc 10 sampleBadRowsTable
      sampleBaseline).1 (by rfl),
   (structural_anchor_fatal sampleBadRowsDoc sampleEmptyDoc 10 sampleBadRowsTable
      sampleBaseline).2.1 (by rfl) (by rfl),
   (structural_anchor_fatal sampleEmptyDoc sampleEmptyDoc 10 sampleBadRowsTable
      sampleBaseline).2.2 (by rfl)⟩

/-- C3 counterexample: a qualifying table whose single parseable row prints
the AQI "-5" yields a record with a negative `aqi` — `Number.parseInt`
accepts a sign, and the row filter only rejects `NaN`, so "every returned
record has aqi ≥ 0" fails. -/
theorem topCities_negative_aqi_cex :
    fetchIQAirTopCities (sampleRankingDoc [sampleRowNegative]) 10 =
      .ok [{ rank := 1, city := "GoodCity", countrySlug := "pakistan", aqi := -5,
             url := "https://www.iqair.com/us/pakistan/lahore" }] ∧
    ((-5 : ℚ) < 0) := by
  refine ⟨by decide, by decide⟩

/-- A row kept by the parser has a non-empty city name. -/
theorem parseRankingRow_city_ne {index : Nat} {row : HNode} {r : IQAirCityRanking}
    (h : parseRankingRow index row = some r) : r.city ≠ "" := by
  unfold parseRankingRow at h
  cases htds : findTag row "td" with
  | nil => rw [htds] at h; simp at h
  | cons cityCell rest =>
    cases rest with
    | nil => rw [htds] at h; simp at h
    | cons aqiCell rest2 =>
      rw [htds] at h
      simp only [] at h
      cases haqi : jsParseInt (jsTrim (match (findTag aqiCell "p").head? with
          | some p => textOf p
          | none => "")) with
      | none => rw [haqi] at h; simp at h
      | some aqiVal =>
        rw [haqi] at h
        split at h
        · simp at h
        · split at h
          · simp at h
          · rename_i hcity
            injection h with h
            subst h
            exact hcity

/-- C3 amended: for a document with a qualifying table holding N ≥ 1
parseable body rows and any `limit ≥ 1`, `getTopCities` succeeds and returns
exactly the first `min N limit` parseable rows, in document order, each with
a non-empty city name and a (sign-accepting) parse-successful integer AQI;
`aqi ≥ 0` holds for every returned record whenever it holds for every
parseable row (rows with an unparsable AQI or an empty city never reach the
output — `parseRankingRow` already maps them to `none`). -/
theorem topCities_limit_order_amended (doc : HNode) (limit : Nat) (t : HNode)
    (ht : findRankingTable doc = some t) (hlim : 1 ≤ limit)
    (hne : parsedRankingRows t ≠ []) :
    fetchIQAirTopCities doc limit = .ok ((parsedRankingRows t).take limit) ∧
    ((parsedRankingRows t).take limit).length =
      min (parsedRankingRows t).length limit ∧
    (∀ r ∈ (parsedRankingRows t).take limit, r.city ≠ "") ∧
    ((∀ r ∈ parsedRankingRows t, 0 ≤ r.aqi) →
      ∀ r ∈ (parsedRankingRows t).take limit, 0 ≤ r.aqi) := by
  have hloop := rankingRowsLoop_eq limit (findUnder "tbody" "tr" false t).enum []
  simp only [List.nil_append, List.length_nil, Nat.sub_zero] at hloop
  have hmem : ∀ r ∈ (parsedRankingRows t).take limit, r ∈ parsedRankingRows t :=
    fun r hr => List.mem_of_mem_take hr
  refine ⟨?_, ?_, ?_, ?_⟩
  · unfold fetchIQAirTopCities
    rw [ht]
    show (if (((rankingRowsLoop limit (findUnder "tbody" "tr" false t).enum []).length == 0) = true)
          then _ else Except.ok (rankingRowsLoop limit (findUnder "tbody" "tr" false t).enum [])) = _
    rw [hloop]
    have hlen : ((parsedRankingRows t).take limit).length ≠ 0 := by
      rw [List.length_take]
      have : parsedRankingRows t ≠ [] := hne
      have : 0 < (parsedRankingRows t).length := List.length_pos.mpr hne
      omega
    unfold parsedRankingRows at hlen ⊢
    simp only [List.length_take] at hlen
    simp [hlen]
  · rw [List.length_take, Nat.min_comm]
  · intro r hr
    obtain ⟨⟨index, row⟩, _, hrow⟩ :=
      List.mem_filterMap.mp (hmem r hr)
    exact parseRankingRow_city_ne hrow
  · intro hall r hr
    exact hall r (hmem r hr)

/-- Witness for `topCities_limit_order_amended`: the spec's round-trip
scenario — rows Lahore (AQI 187) and Delhi (AQI 172) with `limit = 10`
return exactly those two records in order. -/
theorem topCities_limit_order_amended_witness :
    fetchIQAirTopCities (sampleRankingDoc [sampleRowLahore, sampleRowDelhi]) 10 =
      .ok ((parsedRankingRows (sampleRankingDoc [sampleRowLahore, sampleRowDelhi]
          |> findRankingTable |>.getD sampleEmptyDoc)).take 10) ∧
    ((parsedRankingRows (sampleRankingDoc [sampleRowLahore, sampleRowDelhi]
        |> findRankingTable |>.getD sampleEmptyDoc)).take 10).length =
      min (parsedRankingRows (sampleRankingDoc [sampleRowLahore, sampleRowDelhi]
        |> findRankingTable |>.getD sampleEmptyDoc)).length 10 ∧
    (∀ r ∈ (parsedRankingRows (sampleRankingDoc [sampleRowLahore, sampleRowDelhi]
        |> findRankingTable |>.getD sampleEmptyDoc)).take 10, r.city ≠ "") ∧
    ((∀ r ∈ parsedRankingRows (sampleRankingDoc [sampleRowLahore, sampleRowDelhi]
        |> findRankingTable |>.getD sampleEmptyDoc), 0 ≤ r.aqi) →
      ∀ r ∈ (parsedRankingRows (sampleRankingDoc [sampleRowLahore, sampleRowDelhi]
        |> findRankingTable |>.getD sampleEmptyDoc)).take 10, 0 ≤ r.aqi) :=
  topCities_limit_order_amended
    (sampleRankingDoc [sampleRowLahore, sampleRowDelhi]) 10
    (sampleRankingDoc [sampleRowLahore, sampleRowDelhi]
      |> findRankingTable |>.getD sampleEmptyDoc)
    (by rfl) (by decide) (by decide)

/-- The pollutant list is always the row-wise `filterMap` of the drop-guarded
row extractor (when no table matches, the row list is empty). -/
theorem computePollutants_eq (doc : HNode) :
    computePollutants doc = (pollutantRows doc).filterMap extractPollutantRow := by
  unfold computePollutants
  by_cases h : (pollutantTables doc).isEmpty
  · have hrows : pollutantRows doc = [] := by
      unfold pollutantRows
      rw [List.isEmpty_iff.mp h]
      rfl
    simp [h, hrows]
  · simp [h]

/-- The extracted details carry exactly `computePollutants doc`. -/
theorem extractCityDetails_pollutants (doc : HNode) (base : IQAirCityRanking)
    (d : IQAirCityDetails) (h : extractCityDetails doc base = .ok d) :
    d.pollutants = computePollutants doc := by
  unfold extractCityDetails at h
  cases hcard : findAqiCard doc with
  | none => rw [hcard] at h; simp at h
  | some card =>
    rw [hcard] at h
    obtain ⟨mn, mv, mu⟩ := computeMainPollutant card
    simp only [] at h
    split at h <;> · injection h with h; subst h; simp

/-- C8: a pollutant-table row whose extracted name is empty, or whose
extracted value is NaN or 0, contributes no entry: the row extractor maps it
to `none`, and the returned pollutant list is the `filterMap` of the row
extractor over the table's body rows, so no placeholder is emitted. -/
theorem pollutant_row_drop_guard (doc : HNode) (base : IQAirCityRanking)
    (d : IQAirCityDetails) (tr : HNode) (name description : String)
    (value : Option ℚ) (unit : String)
    (hraw : pollutantRowRaw tr = some (name, description, value, unit))
    (hbad : name = "" ∨ value = none ∨ value = some 0)
    (hd : extractCityDetails doc base = .ok d) :
    extractPollutantRow tr = none ∧
      d.pollutants = (pollutantRows doc).filterMap extractPollutantRow := by
  constructor
  · unfold extractPollutantRow
    rw [hraw]
    simp only [if_pos hbad]
  · rw [extractCityDetails_pollutants doc base d hd, computePollutants_eq]

/-- Witness for `pollutant_row_drop_guard`: the row with text
"PM2.5 — µg/m³" and no numeric token (extracted value 0) on the sample
detail page produces no entry. -/
theorem pollutant_row_drop_guard_witness :
    extractPollutantRow samplePollutantRowNoNumber = none ∧
      samplePollutantDetails.pollutants =
        (pollutantRows samplePollutantDoc).filterMap extractPollutantRow :=
  pollutant_row_drop_guard samplePollutantDoc sampleBaseline
    samplePollutantDetails samplePollutantRowNoNumber
    "PM2.5" "Fine particles" (some 0) "µg/m³"
    (by decide) (Or.inr (Or.inr rfl)) (by decide)

/-- One backward-scan step never clears `aqi` once set, and leaves
`aqi`/`estimated` untouched when `aqi` is already nonzero. -/
theorem backScanStep_aqi_of_ne (data : List JVal) (st : BackScanState) (j : Nat)
    (h : st.aqi ≠ 0) :
    (backScanStep data st j).aqi = st.aqi ∧
      (backScanStep data st j).estimated = st.estimated := by
  unfold backScanStep
  cases hd : data.getD j .other with
  | str s =>
    dsimp only
    split_ifs <;> simp
  | num q =>
    dsimp only
    have hcond : ¬(0 < q ∧ q < 600 ∧ st.aqi = 0) := fun hc => h hc.2.2
    rw [if_neg hcond]
    cases hd2 : data.getD (j + 1) .other <;> dsimp only <;> split_ifs <;> simp
  | bool b => dsimp only; simp
  | other => dsimp only; simp

/-- One backward-scan step starting from `aqi = 0` sets `aqi`/`estimated`
from the qualifying pair at `j` when there is one, and otherwise leaves
them as they were. -/
theorem backScanStep_aqi_of_eq (data : List JVal) (st : BackScanState) (j : Nat)
    (h : st.aqi = 0) :
    ((backScanStep data st j).aqi, (backScanStep data st j).estimated) =
      match aqiCandidateAt data j with
      | some qb => qb
      | none => (0, st.estimated) := by
  unfold backScanStep aqiCandidateAt
  cases hd : data.getD j .other with
  | str s =>
    dsimp only
    split_ifs <;> simp [h]
  | num q =>
    dsimp only
    by_cases hq : 0 < q ∧ q < 600
    · have hcond : 0 < q ∧ q < 600 ∧ st.aqi = 0 := ⟨hq.1, hq.2, h⟩
      rw [if_pos hcond, if_pos hq]
      cases hd2 : data.getD (j + 1) .other <;> dsimp only <;> split_ifs <;> simp [h]
    · have hcond : ¬(0 < q ∧ q < 600 ∧ st.aqi = 0) := by
        intro hc; exact hq ⟨hc.1, hc.2.1⟩
      rw [if_neg hcond, if_neg hq]
      cases hd2 : data.getD (j + 1) .other <;> dsimp only <;> split_ifs <;> simp [h]
  | bool b => dsimp only; simp [h]
  | other => dsimp only; simp [h]
/-- A qualifying candidate's number is positive. -/
theorem aqiCandidateAt_pos {data : List JVal} {j : Nat} {q : ℚ} {b : Bool}
    (h : aqiCandidateAt data j = some (q, b)) : 0 < q := by
  unfold aqiCandidateAt at h
  split at h
  · split at h
    · split at h
      · simp only [Option.some.injEq, Prod.mk.injEq] at h
        obtain ⟨hq2, _⟩ := h
        subst hq2
        rename_i hcond x2 b2 heq2 hb
        exact hcond.1
      · simp at h
    · simp at h
  · simp at h

/-- The backward window fold assigns `{aqi, estimated}` from the first
qualifying index in scan order (ascending, i.e. the farthest-back entry of
the window), and keeps the start state's values when none qualifies. -/
theorem backScan_fold_aqi (data : List JVal) (js : List Nat) (st : BackScanState)
    (h : st.aqi = 0) :
    ((js.foldl (backScanStep data) st).aqi,
     (js.foldl (backScanStep data) st).estimated) =
      match js.findSome? (aqiCandidateAt data) with
      | some qb => qb
      | none => (0, st.estimated) := by
  induction js generalizing st with
  | nil => simp [List.findSome?, h]
  | cons j js ih =>
    rw [List.foldl_cons, List.findSome?_cons]
    cases hc : aqiCandidateAt data j with
    | some qb =>
      obtain ⟨q, b⟩ := qb
      have hstep := backScanStep_aqi_of_eq data st j h
      rw [hc] at hstep
      have hq : 0 < q := aqiCandidateAt_pos hc
      have hne : (backScanStep data st j).aqi ≠ 0 := by
        have : (backScanStep data st j).aqi = q := by
          have := congrArg Prod.fst hstep
          simpa using this
        rw [this]
        exact ne_of_gt hq
      have hkeep : ∀ ks : List Nat, ∀ st2 : BackScanState, st2.aqi ≠ 0 →
          ((ks.foldl (backScanStep data) st2).aqi,
           (ks.foldl (backScanStep data) st2).estimated) = (st2.aqi, st2.estimated) := by
        intro ks
        induction ks with
        | nil => intro st2 _; simp
        | cons k ks ih2 =>
          intro st2 hst2
          rw [List.foldl_cons]
          have hs := backScanStep_aqi_of_ne data st2 k hst2
          have := ih2 (backScanStep data st2 k) (by rw [hs.1]; exact hst2)
          rw [this, hs.1, hs.2]
      have := hkeep js (backScanStep data st j) hne
      rw [this]
      have h1 := congrArg Prod.fst hstep
      have h2 := congrArg Prod.snd hstep
      simp only [] at h1 h2
      simp [h1, h2]
    | none =>
      have hstep := backScanStep_aqi_of_eq data st j h
      rw [hc] at hstep
      have h1 := congrArg Prod.fst hstep
      have h2 := congrArg Prod.snd hstep
      simp only [] at h1 h2
      rw [ih (backScanStep data st j) h1]
      rw [h2]

/-- C4 counterexample: for the anchor at index 4 of
`[5, true, 7, true, "/a/b"]`, both j = 0 (number 5) and j = 2 (number 7)
qualify; the nearest (closest preceding) qualifying number is 7 at j = 2,
but the reconstructed record carries `{aqi := 5, estimated := true}` — the
scan runs forward from the window start, so the farthest-back qualifying
number wins, not the nearest. -/
theorem recon_window_nearest_cex :
    parseIQAirSearchResponseSimple sampleWindowData =
      [{ id := "", name := "B", state := "", country := "A", url := "/a/b",
         aqi := 5, estimated := true, latitude := 0, longitude := 0,
         followersCount := 0 }] ∧
    aqiCandidateAt sampleWindowData 2 = some (7, true) ∧
    aqiCandidateAt sampleWindowData 0 = some (5, true) ∧
    ((5 : ℚ) ≠ 7) := by
  refine ⟨by decide, by decide, by decide, by decide⟩

/-- C4 amended: the `{aqi, estimated}` pair of an anchor's record comes from
the first index, scanning the 30-entry backward window in ascending order
(i.e. the earliest / farthest-preceding entry), whose value is a number
strictly between 0 and 600 immediately followed by a boolean; when no entry
qualifies the pair stays `{0, false}`. -/
theorem recon_window_earliest_amended (data : List JVal) (i : Nat)
    (item : String) (parts : List String) :
    ((buildAnchorRecord data i item parts).aqi,
     (buildAnchorRecord data i item parts).estimated) =
      match (List.range' (i - 30) (i - (i - 30))).findSome?
          (aqiCandidateAt data) with
      | some qb => qb
      | none => (0, false) := by
  unfold buildAnchorRecord
  dsimp only
  exact backScan_fold_aqi data _ _ rfl

/-- The comparator is antisymmetric in the JavaScript sense:
`cmp(b, a) = -cmp(a, b)`. -/
theorem searchCmp_neg (a b : IQAirSearchResult) :
    searchCmp b a = -searchCmp a b := by
  unfold searchCmp
  dsimp only
  split_ifs with h1 h2 h3 h4 h5 h6 <;> first | (exfalso; omega) | ring

/-- The comparator-induced relation is total. -/
theorem searchCmp_total (a b : IQAirSearchResult) :
    searchCmp a b ≤ 0 ∨ searchCmp b a ≤ 0 := by
  rcases le_or_lt (searchCmp a b) 0 with h | h
  · exact Or.inl h
  · right
    rw [searchCmp_neg]
    linarith

/-- On records with 2- or 3-segment URLs the comparator orders by the
lexicographic key (`depthRank`, descending `followersCount`). -/
theorem searchCmp_le_iff (a b : IQAirSearchResult)
    (ha : depthOK a) (hb : depthOK b) :
    searchCmp a b ≤ 0 ↔
      (depthRank a < depthRank b ∨
        (depthRank a = depthRank b ∧ b.followersCount ≤ a.followersCount)) := by
  have hurla : urlPartsOf a = (anchorParts a.url).length := rfl
  have hurlb : urlPartsOf b = (anchorParts b.url).length := rfl
  unfold searchCmp depthRank
  unfold depthOK at ha hb
  dsimp only
  rw [← hurla, ← hurlb]
  rcases ha with ha | ha <;> rcases hb with hb | hb <;>
    simp only [ha, hb] <;> norm_num

/-- On records with 2- or 3-segment URLs the comparator ties exactly on
equal keys. -/
theorem searchCmp_eq_zero_iff (a b : IQAirSearchResult)
    (ha : depthOK a) (hb : depthOK b) :
    searchCmp a b = 0 ↔
      (depthRank a = depthRank b ∧ a.followersCount = b.followersCount) := by
  have hurla : urlPartsOf a = (anchorParts a.url).length := rfl
  have hurlb : urlPartsOf b = (anchorParts b.url).length := rfl
  unfold searchCmp depthRank
  unfold depthOK at ha hb
  dsimp only
  rw [← hurla, ← hurlb]
  rcases ha with ha | ha <;> rcases hb with hb | hb <;>
    simp only [ha, hb] <;> norm_num <;>
    constructor <;> intro h <;> linarith

/-- On records with 2- or 3-segment URLs the comparator is transitive. -/
theorem searchCmp_trans {a b c : IQAirSearchResult}
    (ha : depthOK a) (hb : depthOK b) (hc : depthOK c)
    (h1 : searchCmp a b ≤ 0) (h2 : searchCmp b c ≤ 0) : searchCmp a c ≤ 0 := by
  rw [searchCmp_le_iff a b ha hb] at h1
  rw [searchCmp_le_iff b c hb hc] at h2
  rw [searchCmp_le_iff a c ha hc]
  rcases h1 with h1 | ⟨h1e, h1f⟩ <;> rcases h2 with h2 | ⟨h2e, h2f⟩
  · exact Or.inl (lt_trans h1 h2)
  · exact Or.inl (h2e ▸ h1)
  · exact Or.inl (h1e ▸ h2)
  · exact Or.inr ⟨h1e.trans h2e, le_trans h2f h1f⟩

/-- Inserting into a sorted list keeps it sorted, for a total relation that
is transitive on elements satisfying `P`. -/
theorem pairwise_orderedInsert_of {α : Type} (r : α → α → Prop) [DecidableRel r]
    (P : α → Prop) (htot : ∀ x y, r x y ∨ r y x)
    (htr : ∀ x y z, P x → P y → P z → r x y → r y z → r x z)
    (a : α) (hPa : P a) :
    ∀ l : List α, (∀ x ∈ l, P x) → l.Pairwise r →
      (List.orderedInsert r a l).Pairwise r := by
  intro l
  induction l with
  | nil =>
    intro _ _
    simp [List.orderedInsert]
  | cons b t ih =>
    intro hPl hl
    rw [List.orderedInsert]
    split_ifs with hab
    · refine List.pairwise_cons.mpr ⟨?_, hl⟩
      intro x hx
      rcases List.mem_cons.mp hx with rfl | hxt
      · exact hab
      · exact htr a b x hPa (hPl b (List.mem_cons_self b t))
          (hPl x (List.mem_cons_of_mem b hxt)) hab
          ((List.pairwise_cons.mp hl).1 x hxt)
    · have hba : r b a := (htot a b).resolve_left hab
      refine List.pairwise_cons.mpr ⟨?_, ?_⟩
      · intro x hx
        rcases (List.mem_orderedInsert r).mp hx with rfl | hxt
        · exact hba
        · exact (List.pairwise_cons.mp hl).1 x hxt
      · exact ih (fun x hx => hPl x (List.mem_cons_of_mem b hx))
          (List.pairwise_cons.mp hl).2

/-- Insertion sort sorts, for a total relation that is transitive on
elements satisfying `P`. -/
theorem pairwise_insertionSort_of {α : Type} (r : α → α → Prop) [DecidableRel r]
    (P : α → Prop) (htot : ∀ x y, r x y ∨ r y x)
    (htr : ∀ x y z, P x → P y → P z → r x y → r y z → r x z) :
    ∀ l : List α, (∀ x ∈ l, P x) → (List.insertionSort r l).Pairwise r := by
  intro l
  induction l with
  | nil => intro _; simp
  | cons a t ih =>
    intro hPl
    rw [List.insertionSort]
    exact pairwise_orderedInsert_of r P htot htr a
      (hPl a (List.mem_cons_self a t))
      (List.insertionSort r t)
      (fun x hx => hPl x (List.mem_cons_of_mem a ((List.mem_insertionSort r).mp hx)))
      (ih (fun x hx => hPl x (List.mem_cons_of_mem a hx)))

/-- Inserting an element the filter rejects leaves the filtered list
unchanged. -/
theorem filter_orderedInsert_neg {α : Type} (r : α → α → Prop) [DecidableRel r]
    (p : α → Bool) (a : α) (h : p a = false) :
    ∀ l : List α, (List.orderedInsert r a l).filter p = l.filter p := by
  intro l
  induction l with
  | nil => simp [List.orderedInsert, h]
  | cons b t ih =>
    rw [List.orderedInsert]
    split_ifs with hab
    · simp [List.filter_cons, h]
    · simp only [List.filter_cons]
      cases hpb : p b <;> simp [ih]

/-- Inserting an element the filter keeps, before every kept element of the
list, prepends it to the filtered list. -/
theorem filter_orderedInsert_pos {α : Type} (r : α → α → Prop) [DecidableRel r]
    (p : α → Bool) (a : α) (h : p a = true) :
    ∀ l : List α, (∀ b ∈ l, p b = true → r a b) →
      (List.orderedInsert r a l).filter p = a :: l.filter p := by
  intro l
  induction l with
  | nil => intro _; simp [List.orderedInsert, h]
  | cons b t ih =>
    intro hall
    rw [List.orderedInsert]
    split_ifs with hab
    · simp [List.filter_cons, h]
    · have hpb : p b = false := by
        cases hpbv : p b
        · rfl
        · exact absurd (hall b (List.mem_cons_self b t) hpbv) hab
      simp only [List.filter_cons, hpb, Bool.false_eq_true, if_false]
      exact ih (fun x hx hpx => hall x (List.mem_cons_of_mem b hx) hpx)

/-- Stability of insertion sort: filtering by one comparator-equivalence
class (any class whose members are pairwise related both ways) returns the
class members in their original order. -/
theorem filter_insertionSort_of {α : Type} (r : α → α → Prop) [DecidableRel r]
    (P : α → Prop) (p : α → Bool)
    (hsame : ∀ x y, P x → P y → p x = true → p y = true → r x y) :
    ∀ l : List α, (∀ x ∈ l, P x) →
      (List.insertionSort r l).filter p = l.filter p := by
  intro l
  induction l with
  | nil => intro _; simp
  | cons a t ih =>
    intro hPl
    rw [List.insertionSort]
    cases hpa : p a with
    | false =>
      rw [filter_orderedInsert_neg r p a hpa]
      rw [ih (fun x hx => hPl x (List.mem_cons_of_mem a hx))]
      simp [List.filter_cons, hpa]
    | true =>
      rw [filter_orderedInsert_pos r p a hpa _ (fun b hb hpb =>
        hsame a b (hPl a (List.mem_cons_self a t))
          (hPl b (List.mem_cons_of_mem a ((List.mem_insertionSort r).mp hb)))
          hpa hpb)]
      rw [ih (fun x hx => hPl x (List.mem_cons_of_mem a hx))]
      simp [List.filter_cons, hpa]

/-- The record built for an anchor keeps the anchor as its URL. -/
theorem buildAnchorRecord_url (data : List JVal) (i : Nat) (item : String)
    (parts : List String) : (buildAnchorRecord data i item parts).url = item :=
  rfl

/-- One anchor-scan step preserves the 2-or-3-segment URL invariant. -/
theorem reconStep_depth (data : List JVal)
    (st : List String × List IQAirSearchResult) (i : Nat)
    (h : ∀ x ∈ st.2, depthOK x) :
    ∀ x ∈ (reconStep data st i).2, depthOK x := by
  unfold reconStep
  cases hd : data.getD i .other with
  | str item =>
    dsimp only
    split_ifs with hanchor hparts hseen
    · exact h
    · intro x hx
      rcases List.mem_append.mp hx with hx | hx
      · exact h x hx
      · have hx1 : x = buildAnchorRecord data i item (anchorParts item) := by
          simpa using hx
        subst hx1
        have hurl : urlPartsOf (buildAnchorRecord data i item (anchorParts item)) =
            (anchorParts item).length := rfl
        unfold depthOK
        rw [hurl]
        omega
    · exact h
    · exact h
  | num q => exact h
  | bool b => exact h
  | other => exact h

/-- Every reconstructed record (before sorting) has a 2- or 3-segment URL. -/
theorem rawSearchResults_depth (data : List JVal) :
    ∀ x ∈ rawSearchResults data, depthOK x := by
  unfold rawSearchResults
  have hgen : ∀ (is : List Nat) (st : List String × List IQAirSearchResult),
      (∀ x ∈ st.2, depthOK x) →
      ∀ x ∈ (is.foldl (reconStep data) st).2, depthOK x := by
    intro is
    induction is with
    | nil => intro st h; simpa using h
    | cons i is ih =>
      intro st h
      rw [List.foldl_cons]
      exact ih _ (reconStep_depth data st i h)
  exact hgen (List.range data.length) ([], []) (by simp)

/-- C7: in the reconstructor's sorted output, a 3-segment result never
appears after a 2-segment result; among results of equal path depth the
ordering is by descending `followersCount`; and the sort is stable — for
every comparator-equivalence class (a sort key: depth rank and followers
count), the class members appear in exactly their pre-sort order. -/
theorem recon_sort_order_stable (data : List JVal) :
    ((parseIQAirSearchResponseSimple data).Pairwise
      (fun a b => ¬(urlPartsOf a = 2 ∧ urlPartsOf b = 3))) ∧
    ((parseIQAirSearchResponseSimple data).Pairwise
      (fun a b => urlPartsOf a = urlPartsOf b →
        b.followersCount ≤ a.followersCount)) ∧
    (∀ k : Nat × ℚ,
      (parseIQAirSearchResponseSimple data).filter
          (fun x => decide (searchSortKey x = k)) =
        (rawSearchResults data).filter
          (fun x => decide (searchSortKey x = k))) := by
  have hdepth := rawSearchResults_depth data
  have hmem : ∀ x ∈ parseIQAirSearchResponseSimple data, depthOK x := by
    intro x hx
    exact hdepth x ((List.mem_insertionSort _).mp hx)
  have hpair : (parseIQAirSearchResponseSimple data).Pairwise
      (fun a b => searchCmp a b ≤ 0) :=
    pairwise_insertionSort_of _ depthOK searchCmp_total
      (fun x y z hx hy hz => searchCmp_trans hx hy hz)
      (rawSearchResults data) hdepth
  refine ⟨?_, ?_, ?_⟩
  · refine List.Pairwise.imp_of_mem ?_ hpair
    intro a b hma hmb hr hcon
    have ha := hmem a hma
    have hb := hmem b hmb
    rw [searchCmp_le_iff a b ha hb] at hr
    have hra : depthRank a = 1 := by unfold depthRank; simp [hcon.1]
    have hrb : depthRank b = 0 := by unfold depthRank; simp [hcon.2]
    rcases hr with hr | ⟨hr, _⟩ <;> omega
  · refine List.Pairwise.imp_of_mem ?_ hpair
    intro a b hma hmb hr heq
    have ha := hmem a hma
    have hb := hmem b hmb
    rw [searchCmp_le_iff a b ha hb] at hr
    have hrank : depthRank a = depthRank b := by unfold depthRank; rw [heq]
    rcases hr with hr | ⟨_, hf⟩
    · omega
    · exact hf
  · intro k
    refine filter_insertionSort_of _ depthOK _ ?_ (rawSearchResults data) hdepth
    intro x y hx hy hpx hpy
    have hkx : searchSortKey x = k := of_decide_eq_true hpx
    have hky : searchSortKey y = k := of_decide_eq_true hpy
    have hkey : searchSortKey x = searchSortKey y := hkx.trans hky.symm
    unfold searchSortKey at hkey
    have h1 : depthRank x = depthRank y := congrArg Prod.fst hkey
    have h2 : x.followersCount = y.followersCount := congrArg Prod.snd hkey
    rw [searchCmp_le_iff x y hx hy]
    exact Or.inr ⟨h1, le_of_eq h2.symm⟩
